import Mathlib

/-!
Shallow embedding of the Stores-Rating-Platform core: the client-side
rating aggregation (src/services/supabaseService.js), the rating upsert
against the database constraints (supabase migrations), the public
sign-up path and its server-side profile trigger, the auth-state
handler, and the role-based view router (App.jsx / AuthContext.jsx).

Numbers: store ids are Nat (BIGINT identities), scores are Int
(SMALLINT), and the derived average is ℚ.  JavaScript's
`(sum/total).toFixed(1)` followed by `parseFloat` is modelled as exact
rational rounding of the mean to one decimal, half away from zero for
the positive values that occur here (round half up).
-/

namespace StoresRating

/-- The user_role enum of the database schema. -/
inductive Role where
  | admin
  | store_owner
  | user
deriving DecidableEq, Repr

/-- A row of the stores table, as fetched by the service layer. -/
structure Store where
  id : Nat
  name : String
  email : String
  address : String
  owner_id : Option String
deriving DecidableEq, Repr

/-- A rating projected to the columns the aggregation reads
(`select('store_id, rating')`). -/
structure RatingEntry where
  store_id : Nat
  rating : Int
deriving DecidableEq, Repr

/-- The output shape of calculateStoreRatings: the spread store object
plus the two derived fields. -/
structure RatedStore where
  store : Store
  averageRating : ℚ
  totalRatings : Nat
deriving DecidableEq, Repr

/-- Rounding to one decimal place, half up: the exact-value semantics of
JavaScript toFixed(1) composed with parseFloat on nonnegative inputs. -/
def round1 (q : ℚ) : ℚ :=
  ((10 * q + 1 / 2).floor : ℚ) / 10

/-- The body of the map inside calculateStoreRatings: filter the ratings
of one store, count them, and average them (zero ratings give 0, 0). -/
def aggregateStore (ratings : List RatingEntry) (store : Store) : RatedStore :=
  let storeRatings := ratings.filter fun r => r.store_id == store.id
  let totalRatings := storeRatings.length
  if totalRatings == 0 then
    { store := store, averageRating := 0, totalRatings := 0 }
  else
    let sum : Int := storeRatings.foldl (fun acc r => acc + r.rating) 0
    let averageRating := round1 ((sum : ℚ) / (totalRatings : ℚ))
    { store := store, averageRating := averageRating, totalRatings := totalRatings }

/-- calculateStoreRatings from src/services/supabaseService.js. -/
def calculateStoreRatings (stores : List Store) (ratings : List RatingEntry) :
    List RatedStore :=
  stores.map (aggregateStore ratings)

/-- Spec-side reading: the scores of the ratings whose store_id equals
the given store id. -/
def specStoreScores (ratings : List RatingEntry) (storeId : Nat) : List Int :=
  (ratings.filter fun r => r.store_id == storeId).map fun r => r.rating

/-- Spec-side reading of the derived average: arithmetic mean of the
scores rounded to one decimal, and 0 when there are no scores. -/
def specMeanRounded (scores : List Int) : ℚ :=
  if scores.length = 0 then 0
  else round1 ((scores.sum : ℚ) / (scores.length : ℚ))

/-- A concrete store for the worked examples of the spec. -/
def demoStore : Store :=
  { id := 7, name := "Demo Store", email := "demo@example.com",
    address := "1 Demo Street", owner_id := none }

/-- Scenario A of the spec: ratings 5, 4 and 3 for the demo store. -/
def demoRatings : List RatingEntry :=
  [{ store_id := 7, rating := 5 }, { store_id := 7, rating := 4 },
   { store_id := 7, rating := 3 }]

/-! Rating rows and the upsert against the database constraints.

The ratings table (supabase migration) has columns id, user_id,
store_id, rating with CHECK (rating >= 1 AND rating <= 5) and
UNIQUE (user_id, store_id).  submitRating in supabaseService.js issues
an upsert with onConflict on that unique pair and throws the database
error on failure. -/

/-- A row of the ratings table (timestamps omitted; no claim reads them). -/
structure RatingRow where
  id : Nat
  user_id : String
  store_id : Nat
  rating : Int
deriving DecidableEq, Repr

/-- Errors surfaced by the database layer. -/
inductive DbError where
  | checkViolation
  | invalidEnumValue
deriving DecidableEq, Repr

/-- The (user_id, store_id) key test of the unique constraint. -/
def sameKey (userId : String) (storeId : Nat) (r : RatingRow) : Bool :=
  r.user_id == userId && r.store_id == storeId

/-- The UNIQUE (user_id, store_id) constraint as a table invariant. -/
def keysUnique (rows : List RatingRow) : Prop :=
  rows.Pairwise fun a b => a.user_id ≠ b.user_id ∨ a.store_id ≠ b.store_id

instance (rows : List RatingRow) : Decidable (keysUnique rows) := by
  unfold keysUnique; infer_instance

/-- Overwriting the score of the row with the conflicting key, leaving
every other row unchanged. -/
def overwriteScore (userId : String) (storeId : Nat) (score : Int)
    (r : RatingRow) : RatingRow :=
  if sameKey userId storeId r then { r with rating := score } else r

/-- The ON CONFLICT (user_id, store_id) DO UPDATE semantics of the
upsert: a row with the same key is overwritten in place, otherwise a
fresh row is appended. -/
def upsertRatingRows (rows : List RatingRow) (storeId : Nat) (userId : String)
    (score : Int) (freshId : Nat) : List RatingRow :=
  if rows.any (sameKey userId storeId) then
    rows.map (overwriteScore userId storeId score)
  else
    rows ++ [{ id := freshId, user_id := userId, store_id := storeId, rating := score }]

/-- submitRating from supabaseService.js through the database: the
CHECK (rating >= 1 AND rating <= 5) constraint rejects out-of-range
scores (the thrown database error), otherwise the upsert runs. -/
def submitRating (rows : List RatingRow) (storeId : Nat) (userId : String)
    (score : Int) (freshId : Nat) : Except DbError (List RatingRow) :=
  if 1 ≤ score ∧ score ≤ 5 then
    Except.ok (upsertRatingRows rows storeId userId score freshId)
  else
    Except.error DbError.checkViolation

/-- Number of rating rows stored for one store. -/
def countFor (rows : List RatingRow) (storeId : Nat) : Nat :=
  (rows.filter fun r => r.store_id == storeId).length

/-- Projection of a stored row to the columns the aggregation reads. -/
def ratingRowEntry (r : RatingRow) : RatingEntry :=
  { store_id := r.store_id, rating := r.rating }

/-! Public sign-up and the server-side profile trigger. -/

/-- The raw_user_meta_data sent with auth signUp. -/
structure SignUpMetadata where
  name : String
  address : String
  role : Option String
deriving DecidableEq, Repr

/-- A row of the profiles table (id shared with the auth identity). -/
structure Profile where
  id : String
  name : String
  address : String
  role : Role
deriving DecidableEq, Repr

/-- The input of the public registration form.  The register function
in AuthContext.jsx destructures only name, email, address and password;
extraRole stands for any role value a caller might additionally supply,
which register ignores. -/
structure RegisterInput where
  name : String
  email : String
  address : String
  password : String
  extraRole : Option String
deriving DecidableEq, Repr

/-- The metadata register builds for auth signUp: the role is the
hard-coded string user, whatever the caller supplied. -/
def registerMetadata (userData : RegisterInput) : SignUpMetadata :=
  { name := userData.name, address := userData.address, role := some "user" }

/-- The cast of a metadata string to the user_role enum; an unknown
string raises an error in the database. -/
def parseRole (s : String) : Option Role :=
  if s == "admin" then some Role.admin
  else if s == "store_owner" then some Role.store_owner
  else if s == "user" then some Role.user
  else none

/-- handle_new_user from the migration: inserts a profile whose role is
COALESCE((raw_user_meta_data->>'role')::user_role, 'user'); casting an
unknown role string raises a database error. -/
def handle_new_user (identityId : String) (m : SignUpMetadata) :
    Except DbError Profile :=
  match m.role with
  | none => Except.ok { id := identityId, name := m.name, address := m.address, role := Role.user }
  | some s =>
    match parseRole s with
    | some r => Except.ok { id := identityId, name := m.name, address := m.address, role := r }
    | none => Except.error DbError.invalidEnumValue

/-- The profile produced by public registration: auth signUp with the
metadata register builds, materialized by the handle_new_user trigger. -/
def registeredProfile (identityId : String) (userData : RegisterInput) :
    Except DbError Profile :=
  handle_new_user identityId (registerMetadata userData)

/-! Session resolution (AuthContext.jsx onAuthStateChange callback). -/

/-- Outcome of the getProfile call for an authenticated identity:
a row, no row (single() reports an error which getProfile throws),
or a failed request. -/
inductive ProfileFetch where
  | found (p : Profile)
  | noRow
  | fetchFailed
deriving DecidableEq, Repr

/-- The session user the callback stores: the merged identity and
profile when the profile is found; otherwise the callback signs out
(both the missing-profile branch and the catch branch call signOut and
setUser(null)). -/
def resolveSession (session : Option String) (fetch : String → ProfileFetch) :
    Option Profile :=
  match session with
  | none => none
  | some uid =>
    match fetch uid with
    | ProfileFetch.found p => some p
    | ProfileFetch.noRow => none
    | ProfileFetch.fetchFailed => none

/-- Whether the callback forces a sign-out for this event. -/
def forcesSignOut (session : Option String) (fetch : String → ProfileFetch) :
    Bool :=
  match session with
  | none => false
  | some uid =>
    match fetch uid with
    | ProfileFetch.found _ => false
    | ProfileFetch.noRow => true
    | ProfileFetch.fetchFailed => true

/-- The component state of AuthProvider: the user value and the
loading flag. -/
structure AuthState where
  user : Option Profile
  loading : Bool
deriving DecidableEq, Repr

/-- The states AuthProvider passes through while handling one auth
event: setLoading(true) first, then the resolved user, then
setLoading(false). -/
def authEventTrace (prev : AuthState) (session : Option String)
    (fetch : String → ProfileFetch) : List AuthState :=
  let s1 : AuthState := { prev with loading := true }
  let s2 : AuthState := { s1 with user := resolveSession session fetch }
  let s3 : AuthState := { s2 with loading := false }
  [s1, s2, s3]

/-! The role-based view router (AppRouter in App.jsx). -/

/-- getDashboardPath from App.jsx.  The JavaScript switch has a
fallback arm returning the login path for an unexpected role string;
with role the database enum that arm is unreachable. -/
def getDashboardPath (role : Role) : String :=
  match role with
  | Role.admin => "/admin"
  | Role.user => "/user"
  | Role.store_owner => "/store-owner"

/-- What the router renders for a request. -/
inductive RenderResult where
  | spinner
  | dashboard (r : Role)
  | loginPage
  | registerPage
  | redirect (target : String)
deriving DecidableEq, Repr

/-- AppRouter: the loading branch renders the spinner; a signed-in
session registers only its own role's dashboard route plus the root
and catch-all redirects to getDashboardPath(role); an anonymous
session registers the login and registration routes plus a catch-all
redirect to the login path.  Route matching is first-match, as in the
source. -/
def appRouter (loading : Bool) (user : Option Role) (path : String) :
    RenderResult :=
  if loading then RenderResult.spinner
  else
    match user with
    | some role =>
      if path == getDashboardPath role then RenderResult.dashboard role
      else RenderResult.redirect (getDashboardPath role)
    | none =>
      if path == "/login" then RenderResult.loginPage
      else if path == "/register" then RenderResult.registerPage
      else RenderResult.redirect "/login"

/-! The auth operation results (AuthContext.jsx wrappers).  Each
wrapper awaits the service call, whose outcome is modelled as an
optional error message, and returns a plain result record: the
functions are total, so no service error escapes as an exception. -/

/-- The result record the auth operations return to views. -/
structure AuthResult where
  success : Bool
  error : Option String
deriving DecidableEq, Repr

/-- login from AuthContext.jsx. -/
def login (email : String) (password : String) (svcError : Option String) :
    AuthResult :=
  match svcError with
  | some msg => { success := false, error := some msg }
  | none => { success := true, error := none }

/-- register from AuthContext.jsx (the public sign-up wrapper). -/
def register (userData : RegisterInput) (svcError : Option String) :
    AuthResult :=
  match svcError with
  | some msg => { success := false, error := some msg }
  | none => { success := true, error := none }

/-- updatePassword from AuthContext.jsx; the current password is
accepted for signature compatibility and not used. -/
def updatePassword (currentPassword : String) (newPassword : String)
    (svcError : Option String) : AuthResult :=
  match svcError with
  | some msg => { success := false, error := some msg }
  | none => { success := true, error := none }

/-- The input of the admin-only creation path. -/
structure CreateUserInput where
  name : String
  email : String
  address : String
  password : String
  role : String
deriving DecidableEq, Repr

/-- createUser from AuthContext.jsx (admin-only creation path). -/
def createUser (userData : CreateUserInput) (svcError : Option String) :
    AuthResult :=
  match svcError with
  | some msg => { success := false, error := some msg }
  | none => { success := true, error := none }

/-! Helper lemmas. -/

/-- Batteries floor on ℚ coincides with the floor of the ordered field
structure. -/
theorem ratFloor_eq_intFloor (a : ℚ) : a.floor = Int.floor a :=
  (Rat.floor_def' a).trans Rat.floor_def.symm

/-- round1 through Int.floor, for reasoning. -/
theorem round1_eq (q : ℚ) :
    round1 q = ((Int.floor (10 * q + 1 / 2) : ℤ) : ℚ) / 10 := by
  rw [round1, ratFloor_eq_intFloor]

theorem round1_nonneg {q : ℚ} (h : 0 ≤ q) : 0 ≤ round1 q := by
  rw [round1_eq]
  apply div_nonneg _ (by norm_num)
  have hz : (0 : ℤ) ≤ Int.floor (10 * q + 1 / 2) :=
    Int.le_floor.mpr (by push_cast; linarith)
  exact_mod_cast hz

theorem round1_le_five {q : ℚ} (h : q ≤ 5) : round1 q ≤ 5 := by
  rw [round1_eq]
  have hz : Int.floor (10 * q + 1 / 2) ≤ 50 := by
    calc Int.floor (10 * q + 1 / 2) ≤ Int.floor ((101 : ℚ) / 2) :=
          Int.floor_le_floor (by linarith)
    _ = 50 := by norm_num
  rw [div_le_iff₀ (by norm_num : (0 : ℚ) < 10)]
  exact_mod_cast hz.trans_eq (by norm_num)

/-- The reduce of the source, with any accumulator, is the sum of the
projected scores. -/
theorem foldl_add_eq_sum (l : List RatingEntry) (a : Int) :
    l.foldl (fun acc r => acc + r.rating) a = a + (l.map fun r => r.rating).sum := by
  induction l generalizing a with
  | nil => simp
  | cons x t ih => simp [List.foldl_cons, ih]; ring

/-- The map body of calculateStoreRatings agrees with the spec-side
mean-and-count of the store's scores. -/
theorem aggregateStore_spec (ratings : List RatingEntry) (store : Store) :
    aggregateStore ratings store =
      { store := store,
        averageRating := specMeanRounded (specStoreScores ratings store.id),
        totalRatings := (specStoreScores ratings store.id).length } := by
  unfold aggregateStore specMeanRounded specStoreScores
  by_cases h : (ratings.filter fun r => r.store_id == store.id).length = 0
  · simp [h]
  · simp [h, foldl_add_eq_sum]

theorem aggregateStore_store (ratings : List RatingEntry) (store : Store) :
    (aggregateStore ratings store).store = store := by
  rw [aggregateStore_spec]

theorem sum_le_five_mul_length (l : List Int) (h : ∀ x ∈ l, x ≤ 5) :
    l.sum ≤ 5 * (l.length : ℤ) := by
  induction l with
  | nil => simp
  | cons x t ih =>
    have hx := h x (List.mem_cons_self x t)
    have ht := ih fun y hy => h y (List.mem_cons_of_mem x hy)
    simp only [List.sum_cons, List.length_cons]
    push_cast
    linarith

theorem sum_nonneg_of_one_le (l : List Int) (h : ∀ x ∈ l, 1 ≤ x) :
    0 ≤ l.sum := by
  induction l with
  | nil => simp
  | cons x t ih =>
    have hx := h x (List.mem_cons_self x t)
    have ht := ih fun y hy => h y (List.mem_cons_of_mem x hy)
    simp only [List.sum_cons]
    linarith

/-- specMeanRounded stays within [0, 5] when every score is in [1, 5]. -/
theorem specMeanRounded_bounds (scores : List Int)
    (h : ∀ x ∈ scores, 1 ≤ x ∧ x ≤ 5) :
    0 ≤ specMeanRounded scores ∧ specMeanRounded scores ≤ 5 := by
  unfold specMeanRounded
  by_cases h0 : scores.length = 0
  · simp [h0]
  · rw [if_neg h0]
    have hlen : (0 : ℚ) < (scores.length : ℚ) := by
      exact_mod_cast Nat.pos_of_ne_zero h0
    constructor
    · apply round1_nonneg
      apply div_nonneg _ hlen.le
      exact_mod_cast sum_nonneg_of_one_le scores fun x hx => (h x hx).1
    · apply round1_le_five
      rw [div_le_iff₀ hlen]
      have hub := sum_le_five_mul_length scores fun x hx => (h x hx).2
      exact_mod_cast hub

/-- Aggregation only depends on the multiset of rating entries. -/
theorem aggregateStore_perm {e e' : List RatingEntry} (h : e'.Perm e) :
    aggregateStore e' = aggregateStore e := by
  funext store
  have hsc : (specStoreScores e' store.id).Perm (specStoreScores e store.id) := by
    unfold specStoreScores
    exact (h.filter _).map _
  rw [aggregateStore_spec, aggregateStore_spec]
  unfold specMeanRounded
  rw [hsc.length_eq, hsc.sum_eq]

/-! Lemmas about the rating upsert. -/

theorem overwriteScore_store_id (u : String) (s : Nat) (c : Int) (r : RatingRow) :
    (overwriteScore u s c r).store_id = r.store_id := by
  unfold overwriteScore
  split <;> rfl

theorem overwriteScore_user_id (u : String) (s : Nat) (c : Int) (r : RatingRow) :
    (overwriteScore u s c r).user_id = r.user_id := by
  unfold overwriteScore
  split <;> rfl

theorem sameKey_overwriteScore (u : String) (s : Nat) (c : Int) (r : RatingRow) :
    sameKey u s (overwriteScore u s c r) = sameKey u s r := by
  unfold sameKey
  rw [overwriteScore_user_id, overwriteScore_store_id]

theorem sameKey_fields {u : String} {s : Nat} {r : RatingRow}
    (h : sameKey u s r = true) : r.user_id = u ∧ r.store_id = s := by
  unfold sameKey at h
  simp only [Bool.and_eq_true, beq_iff_eq] at h
  exact h

theorem filter_map_comm (g : RatingRow → RatingRow) (p : RatingRow → Bool)
    (hp : ∀ r, p (g r) = p r) :
    ∀ rows : List RatingRow, (rows.map g).filter p = (rows.filter p).map g := by
  intro rows
  induction rows with
  | nil => rfl
  | cons r t ih =>
    rw [List.map_cons, List.filter_cons, List.filter_cons, hp r]
    cases hpr : p r <;> simp [hpr, ih]

theorem map_overwrite_id (u : String) (sId : Nat) (c : Int) :
    ∀ l : List RatingRow, (∀ r ∈ l, sameKey u sId r = false) →
      l.map (overwriteScore u sId c) = l := by
  intro l
  induction l with
  | nil => intro _; rfl
  | cons r t ih =>
    intro h
    have hr := h r (List.mem_cons_self r t)
    simp [List.map_cons, overwriteScore, hr,
      ih fun b hb => h b (List.mem_cons_of_mem r hb)]

theorem key_unique_tail {u : String} {sId : Nat} {r : RatingRow} {t : List RatingRow}
    (hr : ∀ b ∈ t, r.user_id ≠ b.user_id ∨ r.store_id ≠ b.store_id)
    (hk : sameKey u sId r = true) :
    ∀ b ∈ t, sameKey u sId b = false := by
  intro b hb
  obtain ⟨hu1, hs1⟩ := sameKey_fields hk
  by_contra hcon
  rw [Bool.not_eq_false] at hcon
  obtain ⟨hu2, hs2⟩ := sameKey_fields hcon
  rcases hr b hb with h1 | h2
  · exact h1 (by rw [hu1, hu2])
  · exact h2 (by rw [hs1, hs2])

theorem filter_key_singleton (u : String) (sId : Nat) :
    ∀ rows : List RatingRow, keysUnique rows →
      rows.any (sameKey u sId) = true →
      ∃ old, rows.filter (sameKey u sId) = [old] ∧ sameKey u sId old = true := by
  intro rows
  induction rows with
  | nil => intro _ h; simp at h
  | cons r t ih =>
    intro hu hany
    unfold keysUnique at hu
    rw [List.pairwise_cons] at hu
    obtain ⟨hr, hut⟩ := hu
    by_cases hk : sameKey u sId r = true
    · refine ⟨r, ?_, hk⟩
      have htf := key_unique_tail hr hk
      have hnil : t.filter (sameKey u sId) = [] := by
        rw [List.filter_eq_nil_iff]
        intro b hb
        simp [htf b hb]
      simp [List.filter_cons, hk, hnil]
    · have hk' : sameKey u sId r = false := by
        revert hk; cases sameKey u sId r <;> simp
      have hany' : t.any (sameKey u sId) = true := by
        rw [List.any_cons, hk'] at hany
        simpa using hany
      obtain ⟨old, hfil, hold⟩ := ih hut hany'
      exact ⟨old, by simp [List.filter_cons, hk', hfil], hold⟩

theorem upsert_entries_perm_existing (u : String) (sId : Nat) (score : Int) :
    ∀ rows : List RatingRow, keysUnique rows →
      rows.any (sameKey u sId) = true →
      ((rows.map (overwriteScore u sId score)).map ratingRowEntry).Perm
        (RatingEntry.mk sId score ::
          ((rows.filter fun r => !(sameKey u sId r)).map ratingRowEntry)) := by
  intro rows
  induction rows with
  | nil => intro _ h; simp at h
  | cons r t ih =>
    intro hu hany
    unfold keysUnique at hu
    rw [List.pairwise_cons] at hu
    obtain ⟨hr, hut⟩ := hu
    by_cases hk : sameKey u sId r = true
    · have htf := key_unique_tail hr hk
      have hgt : t.map (overwriteScore u sId score) = t :=
        map_overwrite_id u sId score t htf
      have hentry : ratingRowEntry (overwriteScore u sId score r) =
          RatingEntry.mk sId score := by
        obtain ⟨hu1, hs1⟩ := sameKey_fields hk
        simp [overwriteScore, hk, ratingRowEntry, hs1]
      have hft : (t.filter fun b => !(sameKey u sId b)) = t := by
        rw [List.filter_eq_self]
        intro b hb
        simp [htf b hb]
      rw [List.map_cons, hgt, List.map_cons, hentry]
      have hfr : ((r :: t).filter fun b => !(sameKey u sId b)) = t := by
        simp [List.filter_cons, hk, hft]
      rw [hfr]
    · have hk' : sameKey u sId r = false := by
        revert hk; cases sameKey u sId r <;> simp
      have hany' : t.any (sameKey u sId) = true := by
        rw [List.any_cons, hk'] at hany
        simpa using hany
      have hperm := ih hut hany'
      have hgr : overwriteScore u sId score r = r := by
        simp [overwriteScore, hk']
      rw [List.map_cons, List.map_cons, hgr]
      have hfr : ((r :: t).filter fun b => !(sameKey u sId b)) =
          r :: t.filter fun b => !(sameKey u sId b) := by
        simp [List.filter_cons, hk']
      rw [hfr, List.map_cons]
      exact (hperm.cons (ratingRowEntry r)).trans
        (List.Perm.swap (RatingEntry.mk sId score) (ratingRowEntry r) _)

/-! Claim theorems. -/

/-- C1: for every list of stores and every list of ratings,
calculateStoreRatings assigns each store an averageRating equal to the
arithmetic mean of the scores of the ratings whose store_id equals the
store's id, rounded to one decimal place, and a totalRatings equal to
the count of those ratings; a store with zero associated ratings gets
average 0 and total 0 (specMeanRounded covers both cases); and on the
worked example with scores 5, 4, 3 the result is average 4.0 and
total 3. -/
theorem calculateStoreRatings_correct (stores : List Store) (ratings : List RatingEntry) :
    List.Forall₂ (fun st out =>
        out.averageRating = specMeanRounded (specStoreScores ratings st.id) ∧
        out.totalRatings = (specStoreScores ratings st.id).length)
      stores (calculateStoreRatings stores ratings) ∧
    calculateStoreRatings [demoStore] demoRatings =
      [{ store := demoStore, averageRating := 4, totalRatings := 3 }] := by
  constructor
  · induction stores with
    | nil => exact List.Forall₂.nil
    | cons s t ih =>
      simp only [calculateStoreRatings, List.map_cons] at ih ⊢
      exact List.Forall₂.cons (by rw [aggregateStore_spec]; exact ⟨rfl, rfl⟩) ih
  · norm_num [calculateStoreRatings, aggregateStore, demoStore, demoRatings,
      round1, Rat.floor_def']

/-- C6: calculateStoreRatings is pure and order-independent: permuting
the ratings list leaves the output unchanged, and permuting the stores
list permutes the output records accordingly, so every store receives
the same averageRating and totalRatings. -/
theorem calculateStoreRatings_order_independent
    (stores stores' : List Store) (ratings ratings' : List RatingEntry)
    (hs : stores'.Perm stores) (hr : ratings'.Perm ratings) :
    calculateStoreRatings stores ratings' = calculateStoreRatings stores ratings ∧
    (calculateStoreRatings stores' ratings').Perm
      (calculateStoreRatings stores ratings) := by
  have hagg : aggregateStore ratings' = aggregateStore ratings :=
    aggregateStore_perm hr
  exact ⟨by unfold calculateStoreRatings; rw [hagg],
    by unfold calculateStoreRatings; rw [hagg]; exact hs.map _⟩

/-- Witness for C6: reversing the demo ratings is a permutation and the
aggregation output does not change. -/
theorem calculateStoreRatings_order_independent_w :
    demoRatings.reverse.Perm demoRatings ∧
    calculateStoreRatings [demoStore] demoRatings.reverse =
      calculateStoreRatings [demoStore] demoRatings :=
  ⟨demoRatings.reverse_perm,
    (calculateStoreRatings_order_independent [demoStore] [demoStore]
      demoRatings demoRatings.reverse (List.Perm.refl _) demoRatings.reverse_perm).1⟩

/-- C10: calculateStoreRatings yields exactly one output per input
store, in input order, preserving the store's fields unchanged; and
when every rating score lies in [1, 5] every computed averageRating
lies in [0, 5]. -/
theorem calculateStoreRatings_frame (stores : List Store) (ratings : List RatingEntry) :
    (calculateStoreRatings stores ratings).length = stores.length ∧
    (∀ (i : Nat) (hi : i < stores.length)
        (ho : i < (calculateStoreRatings stores ratings).length),
      ((calculateStoreRatings stores ratings).get ⟨i, ho⟩).store = stores.get ⟨i, hi⟩) ∧
    ((∀ r ∈ ratings, 1 ≤ r.rating ∧ r.rating ≤ 5) →
      ∀ out ∈ calculateStoreRatings stores ratings,
        0 ≤ out.averageRating ∧ out.averageRating ≤ 5) := by
  refine ⟨by simp [calculateStoreRatings], ?_, ?_⟩
  · intro i hi ho
    simp [calculateStoreRatings, aggregateStore_store]
  · intro hb out hout
    simp only [calculateStoreRatings, List.mem_map] at hout
    obtain ⟨st, hst, rfl⟩ := hout
    rw [aggregateStore_spec]
    apply specMeanRounded_bounds
    intro x hx
    simp only [specStoreScores, List.mem_map, List.mem_filter] at hx
    obtain ⟨r, ⟨hr, hrid⟩, rfl⟩ := hx
    exact hb r hr

/-- C2: a successful rating upsert keyed on the (user_id, store_id)
unique pair stores exactly the latest score for that pair, leaves all
other rows unchanged, keeps the store's rating count unchanged when the
user had already rated the store and increases it by exactly one for a
first-time rating; the resulting table's rating entries are, up to
order, the latest score plus the rows other than the user's previous
one, so the recomputed aggregation (averageRating, totalRatings) of any
store reflects only the latest score and never both. -/
theorem submitRating_upsert_semantics (rows rows' : List RatingRow) (sId : Nat)
    (u : String) (score : Int) (fid : Nat)
    (hu : keysUnique rows)
    (hok : submitRating rows sId u score fid = Except.ok rows') :
    ((rows'.filter (sameKey u sId)).map (fun r => r.rating) = [score]) ∧
    (rows'.filter (fun r => !(sameKey u sId r)) =
      rows.filter (fun r => !(sameKey u sId r))) ∧
    (rows.any (sameKey u sId) = true → countFor rows' sId = countFor rows sId) ∧
    (rows.any (sameKey u sId) = false →
      countFor rows' sId = countFor rows sId + 1) ∧
    ((rows'.map ratingRowEntry).Perm
      (RatingEntry.mk sId score ::
        ((rows.filter fun r => !(sameKey u sId r)).map ratingRowEntry))) ∧
    (aggregateStore (rows'.map ratingRowEntry) =
      aggregateStore (RatingEntry.mk sId score ::
        ((rows.filter fun r => !(sameKey u sId r)).map ratingRowEntry))) := by
  unfold submitRating at hok
  by_cases hv : 1 ≤ score ∧ score ≤ 5
  · rw [if_pos hv] at hok
    injection hok with hok
    subst hok
    unfold upsertRatingRows
    by_cases hany : rows.any (sameKey u sId) = true
    · rw [if_pos hany]
      obtain ⟨old, hfil, hold⟩ := filter_key_singleton u sId rows hu hany
      have hperm := upsert_entries_perm_existing u sId score rows hu hany
      refine ⟨?_, ?_, ?_, ?_, hperm, aggregateStore_perm hperm⟩
      · rw [filter_map_comm _ _ (sameKey_overwriteScore u sId score), hfil]
        simp [overwriteScore, hold]
      · rw [filter_map_comm _ _
          (fun r => by rw [sameKey_overwriteScore u sId score r])]
        apply map_overwrite_id
        intro b hb
        rw [List.mem_filter] at hb
        revert hb
        cases sameKey u sId b <;> simp
      · intro _
        unfold countFor
        rw [filter_map_comm _ _
          (fun r => by rw [overwriteScore_store_id u sId score r]), List.length_map]
      · intro hfalse
        rw [hfalse] at hany
        cases hany
    · rw [if_neg hany]
      have hany' : rows.any (sameKey u sId) = false := by
        revert hany; cases rows.any (sameKey u sId) <;> simp
      have hallf : ∀ b ∈ rows, sameKey u sId b = false := by
        intro b hb
        have hnb := List.any_eq_false.mp hany' b hb
        revert hnb; cases sameKey u sId b <;> simp
      have hfs : (rows.filter fun r => !(sameKey u sId r)) = rows := by
        rw [List.filter_eq_self]
        intro b hb
        simp [hallf b hb]
      have hknew : sameKey u sId (RatingRow.mk fid u sId score) = true := by
        simp [sameKey]
      have hperm : ((rows ++ [RatingRow.mk fid u sId score]).map
              ratingRowEntry).Perm
          (RatingEntry.mk sId score ::
            ((rows.filter fun r => !(sameKey u sId r)).map ratingRowEntry)) := by
        rw [List.map_append, hfs]
        exact List.perm_append_singleton _ _
      refine ⟨?_, ?_, ?_, ?_, hperm, aggregateStore_perm hperm⟩
      · have hnil : rows.filter (sameKey u sId) = [] := by
          rw [List.filter_eq_nil_iff]
          intro b hb
          simp [hallf b hb]
        rw [List.filter_append, hnil]
        simp [hknew]
      · rw [List.filter_append, hfs]
        simp [hknew]
      · intro hcontra
        exact absurd hcontra hany
      · intro _
        unfold countFor
        rw [List.filter_append, List.length_append]
        simp
  · rw [if_neg hv] at hok
    cases hok

/-- Witness for C2, rerunning scenario C of the spec: user u1 has rated
store 7 with score 3; re-rating with score 5 overwrites the stored row
and leaves the store's rating count unchanged. -/
theorem submitRating_upsert_semantics_w :
    keysUnique [RatingRow.mk 1 "u1" 7 3] ∧
    submitRating [RatingRow.mk 1 "u1" 7 3] 7 "u1" 5 2 =
      Except.ok [RatingRow.mk 1 "u1" 7 5] ∧
    countFor [RatingRow.mk 1 "u1" 7 5] 7 = countFor [RatingRow.mk 1 "u1" 7 3] 7 :=
  ⟨by decide, by rfl,
    (submitRating_upsert_semantics [RatingRow.mk 1 "u1" 7 3]
      [RatingRow.mk 1 "u1" 7 5] 7 "u1" 5 2 (by decide) (by rfl)).2.2.1 (by decide)⟩

/-- C7: the rating submission succeeds, inserting or overwriting,
exactly when the score lies in [1, 5]; any score outside that range is
rejected by the CHECK constraint and surfaces as the thrown database
error (the specification's ValidationError). -/
theorem submitRating_validation (rows : List RatingRow) (sId : Nat) (u : String)
    (score : Int) (fid : Nat) :
    ((1 ≤ score ∧ score ≤ 5) ↔
      ∃ rows', submitRating rows sId u score fid = Except.ok rows') ∧
    (¬(1 ≤ score ∧ score ≤ 5) →
      submitRating rows sId u score fid = Except.error DbError.checkViolation) := by
  unfold submitRating
  by_cases hv : 1 ≤ score ∧ score ≤ 5
  · rw [if_pos hv]
    exact ⟨⟨fun _ => ⟨_, rfl⟩, fun _ => hv⟩, fun h => absurd hv h⟩
  · rw [if_neg hv]
    refine ⟨⟨fun h => absurd h hv, ?_⟩, fun _ => rfl⟩
    rintro ⟨rows', h⟩
    cases h

/-- Witness for C7: score 7 is out of range and the submission fails
with the check-violation error. -/
theorem submitRating_validation_w :
    ¬((1 : Int) ≤ 7 ∧ (7 : Int) ≤ 5) ∧
    submitRating [] 1 "u1" 7 1 = Except.error DbError.checkViolation :=
  ⟨by decide, (submitRating_validation [] 1 "u1" 7 1).2 (by decide)⟩

/-- C3: the public sign-up path always produces a profile with role
user: register hard-codes the role string in the signup metadata, so
the trigger-created profile has role user for every input, whatever
role value the caller supplied alongside. -/
theorem register_always_role_user (identityId : String) (userData : RegisterInput) :
    registeredProfile identityId userData =
      Except.ok (Profile.mk identityId userData.name userData.address Role.user) := by
  rfl

/-- C4: with the session resolved, a signed-in role renders only its
own dashboard (any other requested path redirects to that dashboard),
and an anonymous session renders only the public sign-in and
registration views, everything else redirecting to sign-in. -/
theorem role_routing (path : String) :
    (∀ r rendered, appRouter false (some r) path = RenderResult.dashboard rendered →
      rendered = r) ∧
    (∀ r, path ≠ getDashboardPath r →
      appRouter false (some r) path = RenderResult.redirect (getDashboardPath r)) ∧
    (∀ r, appRouter false none path ≠ RenderResult.dashboard r) ∧
    (appRouter false none path = RenderResult.loginPage ∨
      appRouter false none path = RenderResult.registerPage ∨
      appRouter false none path = RenderResult.redirect "/login") ∧
    (path ≠ "/login" → path ≠ "/register" →
      appRouter false none path = RenderResult.redirect "/login") := by
  refine ⟨?_, ?_, ?_, ?_, ?_⟩
  · intro r rendered h
    by_cases hp : (path == getDashboardPath r) = true
    · simp [appRouter, hp] at h
      exact h.symm
    · simp [appRouter, hp] at h
  · intro r hne
    have hp : (path == getDashboardPath r) = false := beq_eq_false_iff_ne.mpr hne
    simp [appRouter, hp]
  · intro r
    by_cases h1 : (path == "/login") = true <;>
      by_cases h2 : (path == "/register") = true <;>
      simp [appRouter, h1, h2]
  · by_cases h1 : (path == "/login") = true <;>
      by_cases h2 : (path == "/register") = true <;>
      simp [appRouter, h1, h2]
  · intro hn1 hn2
    have h1 : (path == "/login") = false := beq_eq_false_iff_ne.mpr hn1
    have h2 : (path == "/register") = false := beq_eq_false_iff_ne.mpr hn2
    simp [appRouter, h1, h2]

/-- Witness for C4: an admin session requesting the user dashboard path
is redirected to the admin dashboard. -/
theorem role_routing_w :
    ("/user" ≠ getDashboardPath Role.admin) ∧
    appRouter false (some Role.admin) "/user" =
      RenderResult.redirect (getDashboardPath Role.admin) :=
  ⟨by decide, (role_routing "/user").2.1 Role.admin (by decide)⟩

/-- C5: when the profile fetch for an authenticated identity finds no
row or fails, the auth-state handler forces sign-out and leaves the
session user empty, so the router never renders a dashboard for that
session. -/
theorem missing_profile_forces_signout (uid : String)
    (fetch : String → ProfileFetch)
    (h : ∀ p, fetch uid ≠ ProfileFetch.found p) :
    resolveSession (some uid) fetch = none ∧
    forcesSignOut (some uid) fetch = true ∧
    (∀ (path : String) (r : Role),
      appRouter false ((resolveSession (some uid) fetch).map Profile.role) path ≠
        RenderResult.dashboard r) := by
  have hres : resolveSession (some uid) fetch = none := by
    cases hf : fetch uid with
    | found p => exact absurd hf (h p)
    | noRow => simp [resolveSession, hf]
    | fetchFailed => simp [resolveSession, hf]
  refine ⟨hres, ?_, ?_⟩
  · cases hf : fetch uid with
    | found p => exact absurd hf (h p)
    | noRow => simp [forcesSignOut, hf]
    | fetchFailed => simp [forcesSignOut, hf]
  · intro path r
    rw [hres]
    by_cases h1 : (path == "/login") = true <;>
      by_cases h2 : (path == "/register") = true <;>
      simp [appRouter, h1, h2]

/-- Witness for C5: a fetch that reports a missing row for identity u1
yields an empty session user and a forced sign-out. -/
theorem missing_profile_forces_signout_w :
    resolveSession (some "u1") (fun _ => ProfileFetch.noRow) = none ∧
    forcesSignOut (some "u1") (fun _ => ProfileFetch.noRow) = true :=
  ⟨(missing_profile_forces_signout "u1" (fun _ => ProfileFetch.noRow)
      (fun p hp => ProfileFetch.noConfusion hp)).1,
    (missing_profile_forces_signout "u1" (fun _ => ProfileFetch.noRow)
      (fun p hp => ProfileFetch.noConfusion hp)).2.1⟩

/-- C8 counterexample: the claim that after the first session
resolution the provider never re-enters the loading state is false on
the code: from the resolved anonymous state, handling the next auth
event passes through a state with loading set (the callback begins
with setLoading(true)). -/
theorem loading_reentered_cex :
    AuthState.mk none true ∈
      authEventTrace (AuthState.mk none false) none (fun _ => ProfileFetch.noRow) := by
  simp [authEventTrace]

/-- C8 amended: every auth event, also after the first resolution,
first re-enters the loading state and then resolves it: the event
trace begins with the previous user under loading, contains a loading
state, and ends with loading cleared and the user determined by the
session resolution. -/
theorem auth_event_trace_resolution (prev : AuthState) (session : Option String)
    (fetch : String → ProfileFetch) :
    (authEventTrace prev session fetch).head? =
      some (AuthState.mk prev.user true) ∧
    (authEventTrace prev session fetch).getLast? =
      some (AuthState.mk (resolveSession session fetch) false) ∧
    AuthState.mk prev.user true ∈ authEventTrace prev session fetch := by
  refine ⟨rfl, rfl, ?_⟩
  exact List.mem_cons_self _ _

/-- C9: every auth operation returns a plain result record, successful
with no message exactly when the service reported no error and failing
with the service's message otherwise; the wrappers are total functions
into AuthResult, so no service error escapes as a thrown exception. -/
theorem auth_ops_result (email password currentPassword newPassword : String)
    (userData : RegisterInput) (adminData : CreateUserInput) (e : Option String) :
    (login email password e).success = e.isNone ∧
    (login email password e).error = e ∧
    (register userData e).success = e.isNone ∧
    (register userData e).error = e ∧
    (updatePassword currentPassword newPassword e).success = e.isNone ∧
    (updatePassword currentPassword newPassword e).error = e ∧
    (createUser adminData e).success = e.isNone ∧
    (createUser adminData e).error = e := by
  cases e <;> simp [login, register, updatePassword, createUser]

/-- Witness for C10: on the demo input every score is in [1, 5], the
output length matches, the store record is preserved, and the average
is within bounds. -/
theorem calculateStoreRatings_frame_w :
    (∀ r ∈ demoRatings, 1 ≤ r.rating ∧ r.rating ≤ 5) ∧
    ((calculateStoreRatings [demoStore] demoRatings).get
        ⟨0, by decide⟩).store = [demoStore].get ⟨0, by decide⟩ ∧
    (∀ out ∈ calculateStoreRatings [demoStore] demoRatings,
      0 ≤ out.averageRating ∧ out.averageRating ≤ 5) :=
  ⟨by decide,
    (calculateStoreRatings_frame [demoStore] demoRatings).2.1 0 (by decide) (by decide),
    (calculateStoreRatings_frame [demoStore] demoRatings).2.2 (by decide)⟩

end StoresRating
